import Mathlib

/-!
Verification of `sentry/management/commands/serve_normalize.py`.

The development shallowly embeds the serve_normalize module: the envelope
codec (`json.dumps` / `json.loads` / `base64`), the fail-safe wrapper
`catch_errors`, the normalization pipeline `handle_data`, the metric
collector, the crash-isolating dispatcher of `EventNormalizeHandler` and the
connection read loop.  Python exceptions are modelled as values (`PyExc`)
carried in `Except`; byte strings are modelled as Lean `String`s (unicode
text; the py2 str/unicode distinction is outside the model) and raw payload
bytes as `List Nat` with values below 256.  Floating point counter values
are modelled as integers: no claim depends on numeric contents.
All definitions are structurally recursive so that concrete runs reduce
inside the kernel.
-/

/-- JSON values as produced by `json.loads` and consumed by `json.dumps`.
Numbers are modelled as integers (float literals are outside the model). -/
inductive Json where
  | null
  | bool (b : Bool)
  | num (n : Int)
  | str (s : String)
  | arr (xs : List Json)
  | obj (ms : List (String × Json))

/-- Opening brace character (written via its code point). -/
def lbrace : Char := Char.ofNat 123

/-- Closing brace character (written via its code point). -/
def rbrace : Char := Char.ofNat 125

/-- Escaping of one character inside a JSON string, as `json.dumps` does for
the quote and backslash characters.  (`json.dumps` additionally writes
control and non-ASCII characters as `\uXXXX`; both sides of that encoding
are inverse to each other exactly as the verbatim form used here, so the
round-trip behaviour is unchanged.) -/
def escChar (c : Char) : List Char :=
  if c = '"' ∨ c = '\\' then ['\\', c] else [c]

/-- Escape a whole string body. -/
def escString : List Char → List Char
  | [] => []
  | c :: cs => escChar c ++ escString cs

/-- Render a JSON string literal including the surrounding quotes. -/
def renderStr (s : String) : List Char :=
  '"' :: (escString s.toList ++ ['"'])

mutual
/-- Serialization of a JSON value, mirroring `json.dumps` with its default
separators `", "` and `": "`. -/
def renderC : Json → List Char
  | Json.null => "null".toList
  | Json.bool b => if b then "true".toList else "false".toList
  | Json.num n => (Int.repr n).toList
  | Json.str s => renderStr s
  | Json.arr xs => '[' :: (renderItems xs ++ [']'])
  | Json.obj ms => lbrace :: (renderMembers ms ++ [rbrace])

/-- Array elements joined by `", "`. -/
def renderItems : List Json → List Char
  | [] => []
  | [x] => renderC x
  | x :: y :: xs => renderC x ++ ',' :: ' ' :: renderItems (y :: xs)

/-- Object members `"key": value` joined by `", "`. -/
def renderMembers : List (String × Json) → List Char
  | [] => []
  | [(k, v)] => renderStr k ++ ':' :: ' ' :: renderC v
  | (k, v) :: m :: xs =>
    renderStr k ++ ':' :: ' ' :: renderC v ++ ',' :: ' ' :: renderMembers (m :: xs)
end

/-- `json.dumps` on a JSON value. -/
def Json.render (j : Json) : String := String.mk (renderC j)

/-- JSON whitespace. -/
def isWs (c : Char) : Bool := c = ' ' ∨ c = '\t' ∨ c = '\n' ∨ c = '\r'

/-- Drop leading whitespace. -/
def skipWs : List Char → List Char
  | [] => []
  | c :: cs => if isWs c then skipWs cs else c :: cs

/-- Decoding of a JSON escape character (`\uXXXX` escapes are outside the
model; the renderer never produces them). -/
def escDecode (e : Char) : Option Char :=
  if e = '"' then some '"'
  else if e = '\\' then some '\\'
  else if e = '/' then some '/'
  else if e = 'n' then some '\n'
  else if e = 't' then some '\t'
  else if e = 'r' then some '\r'
  else if e = 'b' then some (Char.ofNat 8)
  else if e = 'f' then some (Char.ofNat 12)
  else Option.none

/-- Parse the body of a JSON string after the opening quote; returns the
decoded content and the input following the closing quote. -/
def parseStringBody : List Char → Option (List Char × List Char)
  | [] => Option.none
  | c :: cs =>
    if c = '"' then some ([], cs)
    else if c = '\\' then
      match cs with
      | [] => Option.none
      | e :: cs2 =>
        match escDecode e with
        | some d =>
          match parseStringBody cs2 with
          | some (s, r) => some (d :: s, r)
          | Option.none => Option.none
        | Option.none => Option.none
    else
      match parseStringBody cs with
      | some (s, r) => some (c :: s, r)
      | Option.none => Option.none

/-- Accumulate a run of decimal digits. -/
def parseDigitsAux : List Char → Nat → Nat × List Char
  | [], acc => (acc, [])
  | c :: cs, acc =>
    if c.isDigit then parseDigitsAux cs (acc * 10 + (c.toNat - 48))
    else (acc, c :: cs)

/-- A number literal must not continue as a float (floats are outside the
model: the pipeline never parses numeric wire input in the verified claims). -/
def numOk : List Char → Bool
  | [] => true
  | c :: _ => ¬ (c = '.' ∨ c = 'e' ∨ c = 'E')

/-- Parse an integer literal. -/
def parseNumber : List Char → Option (Json × List Char)
  | [] => Option.none
  | c :: cs =>
    if c = '-' then
      match cs with
      | d :: _ =>
        if d.isDigit then
          let (n, rest) := parseDigitsAux cs 0
          if numOk rest then some (Json.num (-(n : Int)), rest) else Option.none
        else Option.none
      | [] => Option.none
    else if c.isDigit then
      let (n, rest) := parseDigitsAux (c :: cs) 0
      if numOk rest then some (Json.num (n : Int), rest) else Option.none
    else Option.none

/-- Match a literal suffix such as `ull` of `null`. -/
def dropLit : List Char → List Char → Option (List Char)
  | [], cs => some cs
  | l :: ls, c :: cs => if c = l then dropLit ls cs else Option.none
  | _ :: _, [] => Option.none

mutual
/-- Recursive-descent JSON parser (the semantics of `json.loads`).  The
fuel argument only bounds the recursion; `Json.parse` below supplies a
bound sufficient for every input. -/
def parseValue : Nat → List Char → Option (Json × List Char)
  | 0, _ => Option.none
  | Nat.succ fuel, cs =>
    match skipWs cs with
    | [] => Option.none
    | c :: cs1 =>
      if c = 'n' then
        match dropLit "ull".toList cs1 with
        | some r => some (Json.null, r)
        | Option.none => Option.none
      else if c = 't' then
        match dropLit "rue".toList cs1 with
        | some r => some (Json.bool true, r)
        | Option.none => Option.none
      else if c = 'f' then
        match dropLit "alse".toList cs1 with
        | some r => some (Json.bool false, r)
        | Option.none => Option.none
      else if c = '"' then
        match parseStringBody cs1 with
        | some (s, r) => some (Json.str (String.mk s), r)
        | Option.none => Option.none
      else if c = '[' then
        match skipWs cs1 with
        | [] => Option.none
        | c2 :: r =>
          if c2 = ']' then some (Json.arr [], r)
          else
            match parseItems fuel (c2 :: r) with
            | some (xs, r2) => some (Json.arr xs, r2)
            | Option.none => Option.none
      else if c = lbrace then
        match skipWs cs1 with
        | [] => Option.none
        | c2 :: r =>
          if c2 = rbrace then some (Json.obj [], r)
          else
            match parseMembers fuel (c2 :: r) with
            | some (ms, r2) => some (Json.obj ms, r2)
            | Option.none => Option.none
      else parseNumber (c :: cs1)

/-- Parse a nonempty comma-separated list of array elements and the closing
bracket. -/
def parseItems : Nat → List Char → Option (List Json × List Char)
  | 0, _ => Option.none
  | Nat.succ fuel, cs =>
    match parseValue fuel cs with
    | some (j, r) =>
      match skipWs r with
      | [] => Option.none
      | c2 :: r2 =>
        if c2 = ',' then
          match parseItems fuel r2 with
          | some (xs, r3) => some (j :: xs, r3)
          | Option.none => Option.none
        else if c2 = ']' then some ([j], r2)
        else Option.none
    | Option.none => Option.none

/-- Parse a nonempty comma-separated list of object members and the closing
brace. -/
def parseMembers : Nat → List Char → Option (List (String × Json) × List Char)
  | 0, _ => Option.none
  | Nat.succ fuel, cs =>
    match skipWs cs with
    | [] => Option.none
    | c :: cs1 =>
      if c = '"' then
        match parseStringBody cs1 with
        | some (k, r) =>
          match skipWs r with
          | [] => Option.none
          | c2 :: r2 =>
            if c2 = ':' then
              match parseValue fuel r2 with
              | some (v, r3) =>
                match skipWs r3 with
                | [] => Option.none
                | c3 :: r4 =>
                  if c3 = ',' then
                    match parseMembers fuel r4 with
                    | some (ms, r5) => some ((String.mk k, v) :: ms, r5)
                    | Option.none => Option.none
                  else if c3 = rbrace then some ([(String.mk k, v)], r4)
                  else Option.none
              | Option.none => Option.none
            else Option.none
        | Option.none => Option.none
      else Option.none
end

/-- `json.loads`: parse a complete document, allowing trailing whitespace
only.  The fuel `2 * length + 2` dominates the recursion depth, which grows
at most twice as fast as the number of consumed characters. -/
def Json.parse (s : String) : Option Json :=
  match parseValue (2 * s.toList.length + 2) s.toList with
  | some (j, rest) => if skipWs rest = [] then some j else Option.none
  | Option.none => Option.none

/-- The base64 alphabet, as used by `base64.b64encode`/`b64decode`. -/
def b64Chars : List Char :=
  "ABCDEFGHIJKLMNOPQRSTUVWXYZabcdefghijklmnopqrstuvwxyz0123456789+/".toList

/-- Character of a 6-bit group. -/
def b64char (n : Nat) : Char := b64Chars.getD n 'A'

/-- Index of an alphabet character. -/
def b64val (c : Char) : Option Nat := b64Chars.indexOf? c

/-- `base64.b64encode` over raw bytes. -/
def b64encode : List Nat → List Char
  | [] => []
  | [b0] => [b64char (b0 / 4), b64char (b0 % 4 * 16), '=', '=']
  | [b0, b1] => [b64char (b0 / 4), b64char (b0 % 4 * 16 + b1 / 16), b64char (b1 % 16 * 4), '=']
  | b0 :: b1 :: b2 :: rest =>
    b64char (b0 / 4) :: b64char (b0 % 4 * 16 + b1 / 16) ::
      b64char (b1 % 16 * 4 + b2 / 64) :: b64char (b2 % 64) :: b64encode rest

/-- String form of `base64.b64encode`. -/
def b64encodeStr (bs : List Nat) : String := String.mk (b64encode bs)

/-- Exception classes relevant to the module.  `catch_errors` distinguishes
`ValueError`/`TypeError` in its encoding-failure handler; everything is a
subclass of `Exception` and hence caught by the outer handler. -/
inductive ExcKind where
  | valueError
  | typeError
  | attributeError
  | assertionError
  | binasciiError
  | other
deriving DecidableEq

/-- A Python exception value: its class, its `.message` and the text
`traceback.format_exc()` would produce at the raise site. -/
structure PyExc where
  kind : ExcKind
  msg : String
  trace : String
deriving DecidableEq

/-- Representative traceback text for a raise site. -/
def tb (site : String) : String :=
  "Traceback (most recent call last): " ++ site

/-- `django.utils.encoding.force_str`; the identity on the unicode strings
of the model. -/
def force_str (s : String) : String := s

/-- `base64.b64decode` over the character list, in groups of four with
trailing `=` padding. -/
def b64decodeCs : List Char → Except PyExc (List Nat)
  | [] => Except.ok []
  | c1 :: c2 :: c3 :: c4 :: rest =>
    match b64val c1, b64val c2 with
    | some v1, some v2 =>
      if c3 = '=' then
        if c4 = '=' ∧ rest = [] then Except.ok [v1 * 4 + v2 / 16]
        else Except.error ⟨ExcKind.binasciiError, "Incorrect padding", tb "base64.b64decode"⟩
      else
        match b64val c3 with
        | some v3 =>
          if c4 = '=' then
            if rest = [] then Except.ok [v1 * 4 + v2 / 16, v2 % 16 * 16 + v3 / 4]
            else Except.error ⟨ExcKind.binasciiError, "Incorrect padding", tb "base64.b64decode"⟩
          else
            match b64val c4 with
            | some v4 =>
              match b64decodeCs rest with
              | Except.ok tl =>
                Except.ok ([v1 * 4 + v2 / 16, v2 % 16 * 16 + v3 / 4, v3 % 4 * 64 + v4] ++ tl)
              | Except.error e => Except.error e
            | Option.none => Except.error ⟨ExcKind.binasciiError, "Non-base64 digit found", tb "base64.b64decode"⟩
        | Option.none => Except.error ⟨ExcKind.binasciiError, "Non-base64 digit found", tb "base64.b64decode"⟩
    | _, _ => Except.error ⟨ExcKind.binasciiError, "Non-base64 digit found", tb "base64.b64decode"⟩
  | _ => Except.error ⟨ExcKind.binasciiError, "Incorrect padding", tb "base64.b64decode"⟩

/-- `base64.b64decode` on a string. -/
def b64decode (s : String) : Except PyExc (List Nat) := b64decodeCs s.toList

/-- Every 6-bit value maps into the alphabet and back, and never to the
padding character. -/
theorem b64_alphabet : ∀ v : Fin 64, b64val (b64char v.val) = some v.val ∧ b64char v.val ≠ '=' := by
  decide

theorem b64val_b64char {v : Nat} (h : v < 64) : b64val (b64char v) = some v :=
  (b64_alphabet ⟨v, h⟩).1

theorem b64char_ne_pad {v : Nat} (h : v < 64) : b64char v ≠ '=' :=
  (b64_alphabet ⟨v, h⟩).2

/-- `b64decode` is a left inverse of `b64encode` on byte sequences. -/
theorem b64_roundtrip (bs : List Nat) (h : ∀ b ∈ bs, b < 256) :
    b64decodeCs (b64encode bs) = Except.ok bs := by
  match bs with
  | [] => rfl
  | [b0] =>
    have hb0 : b0 < 256 := h b0 (by simp)
    have h1 : b0 / 4 < 64 := by omega
    have h2 : b0 % 4 * 16 < 64 := by omega
    simp only [b64encode, b64decodeCs, b64val_b64char h1, b64val_b64char h2]
    simp only [if_pos rfl, and_self, if_true]
    simp
    omega
  | [b0, b1] =>
    have hb0 : b0 < 256 := h b0 (by simp)
    have hb1 : b1 < 256 := h b1 (by simp)
    have h1 : b0 / 4 < 64 := by omega
    have h2 : b0 % 4 * 16 + b1 / 16 < 64 := by omega
    have h3 : b1 % 16 * 4 < 64 := by omega
    simp only [b64encode, b64decodeCs, b64val_b64char h1, b64val_b64char h2,
      b64val_b64char h3, if_neg (b64char_ne_pad h3), if_pos rfl]
    simp
    omega
  | b0 :: b1 :: b2 :: rest =>
    have hb0 : b0 < 256 := h b0 (by simp)
    have hb1 : b1 < 256 := h b1 (by simp)
    have hb2 : b2 < 256 := h b2 (by simp)
    have ih := b64_roundtrip rest (fun b hb => h b (by simp [hb]))
    have h1 : b0 / 4 < 64 := by omega
    have h2 : b0 % 4 * 16 + b1 / 16 < 64 := by omega
    have h3 : b1 % 16 * 4 + b2 / 64 < 64 := by omega
    have h4 : b2 % 64 < 64 := by omega
    simp only [b64encode, b64decodeCs, b64val_b64char h1, b64val_b64char h2,
      b64val_b64char h3, b64val_b64char h4, if_neg (b64char_ne_pad h3),
      if_neg (b64char_ne_pad h4), ih]
    simp
    omega
termination_by bs.length

theorem mkToList (s : String) : String.mk s.toList = s := rfl

theorem mk_data (s : String) : String.mk s.data = s := rfl

theorem escDecode_self {c : Char} (h : c = '"' ∨ c = '\\') : escDecode c = some c := by
  rcases h with h | h <;> subst h <;> rfl

/-- The string parser inverts the escaping renderer. -/
theorem parseStringBody_esc (l rest : List Char) :
    parseStringBody (escString l ++ '"' :: rest) = some (l, rest) := by
  induction l with
  | nil =>
    rw [show escString [] ++ '"' :: rest = '"' :: rest from rfl, parseStringBody.eq_def]
    simp
  | cons c l ih =>
    by_cases hc : c = '"' ∨ c = '\\'
    · simp only [escString, escChar, if_pos hc, List.cons_append, List.nil_append,
        List.append_assoc]
      rw [parseStringBody.eq_def]
      simp [escDecode_self hc, ih]
    · have h1 : ¬ c = '"' := fun h => hc (Or.inl h)
      have h2 : ¬ c = '\\' := fun h => hc (Or.inr h)
      simp only [escString, escChar, if_neg hc, List.cons_append, List.nil_append]
      rw [parseStringBody.eq_def]
      simp [h1, h2, ih]

theorem skipWs_space (cs : List Char) : skipWs (' ' :: cs) = skipWs cs := by
  simp [skipWs, isWs]

/-- A rendered string literal parses back to itself at any positive fuel. -/
theorem parseValue_renderStr (f : Nat) (s : String) (rest : List Char) :
    parseValue (Nat.succ f) (renderStr s ++ rest) = some (Json.str s, rest) := by
  rw [show renderStr s ++ rest = '"' :: (escString s.toList ++ '"' :: rest) from by
    simp [renderStr]]
  rw [parseValue.eq_def]
  simp [skipWs, isWs, parseStringBody_esc, mkToList]

theorem parseValue_space (f : Nat) (cs : List Char) :
    parseValue (Nat.succ f) (' ' :: cs) = parseValue (Nat.succ f) cs := by
  simp only [parseValue, skipWs_space]

theorem parseMembers_space (f : Nat) (cs : List Char) :
    parseMembers (Nat.succ f) (' ' :: cs) = parseMembers (Nat.succ f) cs := by
  simp only [parseMembers, skipWs_space]

theorem skipWs_quote (cs : List Char) : skipWs ('"' :: cs) = '"' :: cs := by
  simp [skipWs, isWs]

theorem skipWs_colon (cs : List Char) : skipWs (':' :: cs) = ':' :: cs := by
  simp [skipWs, isWs]

theorem skipWs_comma (cs : List Char) : skipWs (',' :: cs) = ',' :: cs := by
  simp [skipWs, isWs]

theorem skipWs_rbraceL (cs : List Char) : skipWs (rbrace :: cs) = rbrace :: cs := by
  simp [skipWs, isWs, rbrace]

/-- The JSON form of a string-to-string metadata mapping. -/
def strPairs (kvs : List (String × String)) : List (String × Json) :=
  kvs.map (fun p => (p.1, Json.str p.2))

/-- Rendered string-valued object members parse back to themselves. -/
theorem parseMembers_strs (kvs : List (String × String)) :
    ∀ (k v : String) (f : Nat) (rest : List Char),
    parseMembers (Nat.succ (Nat.succ (f + kvs.length)))
        (renderMembers (strPairs ((k, v) :: kvs)) ++ rbrace :: rest)
      = some (strPairs ((k, v) :: kvs), rest) := by
  induction kvs with
  | nil =>
    intro k v f rest
    have hk : renderMembers (strPairs [(k, v)]) ++ rbrace :: rest
        = '"' :: (escString k.toList ++ '"' :: (':' :: ' ' :: (renderStr v ++ rbrace :: rest))) := by
      simp [strPairs, renderMembers, renderC, renderStr]
    rw [hk]
    simp [parseMembers, skipWs_quote, parseStringBody_esc, skipWs_colon, parseValue_space,
      parseValue_renderStr, skipWs_rbraceL, mkToList, strPairs,
      (by decide : ¬ (rbrace = ','))]
  | cons p kvs ih =>
    intro k v f rest
    obtain ⟨pk, pv⟩ := p
    have hk : renderMembers (strPairs ((k, v) :: (pk, pv) :: kvs)) ++ rbrace :: rest
        = '"' :: (escString k.toList ++ '"' :: (':' :: ' ' :: (renderStr v ++ ',' :: ' '
            :: (renderMembers (strPairs ((pk, pv) :: kvs)) ++ rbrace :: rest)))) := by
      simp [strPairs, renderMembers, renderC, renderStr]
    rw [hk]
    simp only [List.length_cons, Nat.add_succ]
    rw [parseMembers.eq_def]
    simp [skipWs_quote, parseStringBody_esc, skipWs_colon, parseValue_space,
      parseValue_renderStr, skipWs_comma, parseMembers_space, mkToList, strPairs]
    have ih2 := ih pk pv f rest
    simp [strPairs] at ih2
    rw [show f + kvs.length + 1 + 1 = Nat.succ (Nat.succ (f + kvs.length)) from rfl, ih2]

theorem skipWs_lbraceL (cs : List Char) : skipWs (lbrace :: cs) = lbrace :: cs := by
  rw [skipWs]
  simp [isWs, lbrace]

theorem skipWs_lbrack (cs : List Char) : skipWs ('[' :: cs) = '[' :: cs := by
  simp [skipWs, isWs]

theorem skipWs_rbrack (cs : List Char) : skipWs (']' :: cs) = ']' :: cs := by
  simp [skipWs, isWs]

theorem braceFacts :
    isWs lbrace = false ∧ isWs rbrace = false ∧
    ¬ lbrace = 'n' ∧ ¬ lbrace = 't' ∧ ¬ lbrace = 'f' ∧ ¬ lbrace = '"' ∧ ¬ lbrace = '[' ∧
    ¬ lbrace = ']' ∧ ¬ rbrace = ',' ∧ ¬ rbrace = ']' ∧ ¬ '"' = rbrace ∧ ¬ rbrace = '"' := by
  decide

theorem renderMembers_cons_head (k : String) (j : Json) (ms : List (String × Json)) :
    ∃ T, renderMembers ((k, j) :: ms) = '"' :: T := by
  cases ms with
  | nil => exact ⟨escString k.toList ++ '"' :: (':' :: ' ' :: renderC j), by
      simp [renderMembers, renderStr]⟩
  | cons m ms => exact ⟨escString k.toList ++ '"' :: (':' :: ' ' :: (renderC j ++ ',' :: ' '
      :: renderMembers (m :: ms))), by simp [renderMembers, renderStr]⟩

/-- A rendered string-valued object parses back to itself. -/
theorem parseValue_strObj (kvs : List (String × String)) (f : Nat) (rest : List Char) :
    parseValue (Nat.succ (Nat.succ (f + kvs.length)))
        (renderC (Json.obj (strPairs kvs)) ++ rest)
      = some (Json.obj (strPairs kvs), rest) := by
  match kvs with
  | [] =>
    have h : renderC (Json.obj (strPairs [])) ++ rest = lbrace :: rbrace :: rest := by
      simp [strPairs, renderC, renderMembers]
    rw [h, parseValue.eq_def]
    simp [skipWs_lbraceL, skipWs_rbraceL, braceFacts, strPairs]
  | (k, v) :: tail =>
    have h : renderC (Json.obj (strPairs ((k, v) :: tail))) ++ rest
        = lbrace :: (renderMembers (strPairs ((k, v) :: tail)) ++ rbrace :: rest) := by
      simp [renderC]
    rw [h]
    simp only [List.length_cons, Nat.add_succ]
    obtain ⟨T, hT⟩ := renderMembers_cons_head k (Json.str v) (strPairs tail)
    rw [show strPairs ((k, v) :: tail) = (k, Json.str v) :: strPairs tail from rfl, hT]
    rw [parseValue.eq_def]
    simp only [List.cons_append]
    simp [skipWs_lbraceL, skipWs_quote, braceFacts]
    rw [← List.cons_append, ← hT]
    have := parseMembers_strs tail k v f rest
    rw [show strPairs ((k, v) :: tail) = (k, Json.str v) :: strPairs tail from rfl] at this
    simp [this]

theorem renderC_obj_head (ms : List (String × Json)) :
    renderC (Json.obj ms) = lbrace :: (renderMembers ms ++ [rbrace]) := by
  simp [renderC]

/-- A rendered request message `[metadata-object, payload-string]` parses
back to itself. -/
theorem parseValue_request (kvs : List (String × String)) (p : String) (f : Nat)
    (rest : List Char) :
    parseValue (Nat.succ (Nat.succ (Nat.succ (Nat.succ (f + kvs.length)))))
        (renderC (Json.arr [Json.obj (strPairs kvs), Json.str p]) ++ rest)
      = some (Json.arr [Json.obj (strPairs kvs), Json.str p], rest) := by
  have h : renderC (Json.arr [Json.obj (strPairs kvs), Json.str p]) ++ rest
      = '[' :: (renderC (Json.obj (strPairs kvs)) ++ (',' :: ' ' :: (renderStr p
          ++ (']' :: rest)))) := by
    simp [renderC, renderItems]
  rw [h, parseValue.eq_def]
  rw [renderC_obj_head]
  simp only [List.cons_append, List.append_assoc]
  simp [skipWs_lbrack, skipWs_lbraceL, braceFacts]
  rw [show lbrace :: (renderMembers (strPairs kvs) ++ rbrace :: ',' :: ' '
        :: (renderStr p ++ ']' :: rest))
      = renderC (Json.obj (strPairs kvs)) ++ (',' :: ' ' :: (renderStr p ++ ']' :: rest)) from by
    simp [renderC]]
  rw [parseItems.eq_def]
  have hobj := parseValue_strObj kvs f (',' :: ' ' :: (renderStr p ++ ']' :: rest))
  simp [hobj, skipWs_comma]
  rw [parseItems.eq_def]
  simp [parseValue_space, parseValue_renderStr, skipWs_rbrack]

theorem toList_mk (l : List Char) : (String.mk l).toList = l := rfl

theorem renderMembers_len (ms : List (String × Json)) :
    ms.length ≤ (renderMembers ms).length := by
  induction ms with
  | nil => simp [renderMembers]
  | cons m ms ih =>
    obtain ⟨k, v⟩ := m
    cases ms with
    | nil => simp [renderMembers, renderStr]
    | cons m2 ms2 =>
      simp only [renderMembers, List.length_append, List.length_cons] at ih ⊢
      omega

/-- `json.loads` inverts `json.dumps` on request messages. -/
theorem parse_render_request (kvs : List (String × String)) (p : String) :
    Json.parse (Json.render (Json.arr [Json.obj (strPairs kvs), Json.str p]))
      = some (Json.arr [Json.obj (strPairs kvs), Json.str p]) := by
  have h1 : kvs.length ≤ (renderMembers (strPairs kvs)).length := by
    have h := renderMembers_len (strPairs kvs)
    simpa [strPairs] using h
  have hlen : kvs.length + 4 ≤ 2 * (renderC (Json.arr [Json.obj (strPairs kvs), Json.str p])).length + 2 := by
    simp only [renderC, renderItems, List.length_cons, List.length_append]
    omega
  obtain ⟨g, hg⟩ : ∃ g, 2 * (renderC (Json.arr [Json.obj (strPairs kvs), Json.str p])).length + 2
      = Nat.succ (Nat.succ (Nat.succ (Nat.succ (g + kvs.length)))) :=
    ⟨2 * (renderC (Json.arr [Json.obj (strPairs kvs), Json.str p])).length + 2 - 4 - kvs.length,
      by omega⟩
  unfold Json.parse
  rw [show (Json.render (Json.arr [Json.obj (strPairs kvs), Json.str p])).toList
      = renderC (Json.arr [Json.obj (strPairs kvs), Json.str p]) from rfl]
  rw [hg]
  have hreq := parseValue_request kvs p g []
  rw [List.append_nil] at hreq
  rw [hreq]
  simp [skipWs]

/-- Python objects that can appear in response envelopes.  `blob` stands for
a native object that `json.dumps` cannot serialize (such as a `datetime`
inside normalized event data); its tag describes it. -/
inductive Obj where
  | null
  | bool (b : Bool)
  | int (n : Int)
  | str (s : String)
  | list (xs : List Obj)
  | dict (kvs : List (String × Obj))
  | blob (tag : String)

mutual
/-- JSON-serializability of a Python object, as `json.dumps` decides it:
`some` of the JSON value, or `none` when a non-serializable object occurs. -/
def toJson : Obj → Option Json
  | Obj.null => some Json.null
  | Obj.bool b => some (Json.bool b)
  | Obj.int n => some (Json.num n)
  | Obj.str s => some (Json.str s)
  | Obj.list xs =>
    match toJsonList xs with
    | some js => some (Json.arr js)
    | Option.none => Option.none
  | Obj.dict kvs =>
    match toJsonPairs kvs with
    | some ms => some (Json.obj ms)
    | Option.none => Option.none
  | Obj.blob _ => Option.none

def toJsonList : List Obj → Option (List Json)
  | [] => some []
  | x :: xs =>
    match toJson x with
    | some j =>
      match toJsonList xs with
      | some js => some (j :: js)
      | Option.none => Option.none
    | Option.none => Option.none

def toJsonPairs : List (String × Obj) → Option (List (String × Json))
  | [] => some []
  | (k, v) :: kvs =>
    match toJson v with
    | some j =>
      match toJsonPairs kvs with
      | some ms => some ((k, j) :: ms)
      | Option.none => Option.none
    | Option.none => Option.none
end

/-- `encode(data)`: `json.dumps(data)`.  Non-serializable values raise
`TypeError` (`"... is not JSON serializable"`). -/
def encode (data : Obj) : Except PyExc String :=
  match toJson data with
  | some j => Except.ok (Json.render j)
  | Option.none =>
    Except.error ⟨ExcKind.typeError, "is not JSON serializable", tb "json.dumps"⟩

/-- Python sequence unpacking `meta, data_encoded = json.loads(message)`:
a sequence of exactly two elements unpacks; any other length raises
`ValueError`; non-iterable values raise `TypeError`.  Iterating a string
yields its characters and iterating a dict yields its keys. -/
def unpack2 : Json → Except PyExc (Json × Json)
  | Json.arr [a, b] => Except.ok (a, b)
  | Json.arr xs =>
    Except.error ⟨ExcKind.valueError,
      if xs.length < 2 then "need more than " ++ toString xs.length ++ " values to unpack"
      else "too many values to unpack", tb "unpack"⟩
  | Json.str s =>
    match s.toList with
    | [c1, c2] => Except.ok (Json.str (String.mk [c1]), Json.str (String.mk [c2]))
    | l =>
      Except.error ⟨ExcKind.valueError,
        if l.length < 2 then "need more than " ++ toString l.length ++ " values to unpack"
        else "too many values to unpack", tb "unpack"⟩
  | Json.obj ms =>
    match ms with
    | [(k1, _), (k2, _)] => Except.ok (Json.str k1, Json.str k2)
    | l =>
      Except.error ⟨ExcKind.valueError,
        if l.length < 2 then "need more than " ++ toString l.length ++ " values to unpack"
        else "too many values to unpack", tb "unpack"⟩
  | _ => Except.error ⟨ExcKind.typeError, "is not iterable", tb "unpack"⟩

/-- `decode(message)`: `meta, data_encoded = json.loads(message)`, then
`data = base64.b64decode(data_encoded)`, returning `(data, meta)`. -/
def decode (message : String) : Except PyExc (List Nat × Json) :=
  match Json.parse message with
  | Option.none =>
    Except.error ⟨ExcKind.valueError, "No JSON object could be decoded", tb "json.loads"⟩
  | some parsed =>
    match unpack2 parsed with
    | Except.error e => Except.error e
    | Except.ok (meta, dataEncoded) =>
      match dataEncoded with
      | Json.str s =>
        match b64decode s with
        | Except.ok data => Except.ok (data, meta)
        | Except.error e => Except.error e
      | _ => Except.error ⟨ExcKind.typeError, "expected string or buffer", tb "base64.b64decode"⟩

/-- `dict.get(key)` on the decoded metadata.  Non-dict values have no `get`
attribute, and the access raises `AttributeError`. -/
def metaGet (meta : Json) (key : String) : Except PyExc (Option Json) :=
  match meta with
  | Json.obj ms => Except.ok (ms.lookup key)
  | _ => Except.error ⟨ExcKind.attributeError, "object has no attribute get", tb "meta.get"⟩

/-- External collaborators of `process_event`: the normalization engine
(`EventManager(...)` construction plus `.normalize()` plus `.get_data()`),
`should_process` and `get_hashes`.  Each may raise an arbitrary exception.
The normalized event is a Python dict (string keys to objects). -/
structure Engine where
  normalize : List Nat → Option Json → Option Json → Option Json →
    Except PyExc (List (String × Obj))
  should_process : List (String × Obj) → Except PyExc Bool
  get_hashes : List (String × Obj) → Except PyExc Obj

/-- `process_event(data, meta)`: builds the event manager from the metadata
fields, normalizes, computes the optional group hash, and wraps the result
as `{"event": dict(event), "group_hash": group_hash}`. -/
def process_event (eng : Engine) (data : List Nat) (meta : Json) : Except PyExc Obj := do
  let remote_addr ← metaGet meta "REMOTE_ADDR"
  let user_agent ← metaGet meta "HTTP_USER_AGENT"
  let content_encoding ← metaGet meta "HTTP_CONTENT_ENCODING"
  let event ← eng.normalize data remote_addr user_agent content_encoding
  let sp ← eng.should_process event
  let group_hash ← if sp then Except.ok Obj.null else eng.get_hashes event
  Except.ok (Obj.dict [("event", Obj.dict event), ("group_hash", group_hash)])

/-- The process resource-usage counters of `resource.getrusage`, the fields
of CPython's `struct_rusage` (times are modelled as integers). -/
structure RUsage where
  ru_idrss : Int
  ru_inblock : Int
  ru_isrss : Int
  ru_ixrss : Int
  ru_majflt : Int
  ru_maxrss : Int
  ru_minflt : Int
  ru_msgrcv : Int
  ru_msgsnd : Int
  ru_nivcsw : Int
  ru_nsignals : Int
  ru_nswap : Int
  ru_nvcsw : Int
  ru_oublock : Int
  ru_stime : Int
  ru_utime : Int

/-- The `ru_`-prefixed attributes of `struct_rusage` in the (sorted) order
`dir(usage)` yields them: the attribute set of the platform structure is
fixed, so the dict comprehension over `dir(usage)` always produces exactly
these keys. -/
def rusageItems (u : RUsage) : List (String × Obj) :=
  [("ru_idrss", Obj.int u.ru_idrss), ("ru_inblock", Obj.int u.ru_inblock),
   ("ru_isrss", Obj.int u.ru_isrss), ("ru_ixrss", Obj.int u.ru_ixrss),
   ("ru_majflt", Obj.int u.ru_majflt), ("ru_maxrss", Obj.int u.ru_maxrss),
   ("ru_minflt", Obj.int u.ru_minflt), ("ru_msgrcv", Obj.int u.ru_msgrcv),
   ("ru_msgsnd", Obj.int u.ru_msgsnd), ("ru_nivcsw", Obj.int u.ru_nivcsw),
   ("ru_nsignals", Obj.int u.ru_nsignals), ("ru_nswap", Obj.int u.ru_nswap),
   ("ru_nvcsw", Obj.int u.ru_nvcsw), ("ru_oublock", Obj.int u.ru_oublock),
   ("ru_stime", Obj.int u.ru_stime), ("ru_utime", Obj.int u.ru_utime)]

/-- The state of the process environment at one `collect_metrics` call:
wall-clock time, the resource counters, the platform flag captured by
`MetricCollector.__init__` and the contents of `/proc/<pid>/status`. -/
structure Env where
  timeNow : Int
  usage : RUsage
  is_linux : Bool
  procStatus : String

/-- `MetricCollector.collect_metrics`: `{'time': ...}` updated with the
`ru_*` usage dict, plus the verbatim `/proc/<pid>/status` text on Linux. -/
def MetricCollector.collect_metrics (env : Env) : Obj :=
  Obj.dict ([("time", Obj.int env.timeNow)] ++ rusageItems env.usage
    ++ (if env.is_linux then [("proc", Obj.str env.procStatus)] else []))

/-- The recovered-error envelope built by `catch_errors`. -/
def errEnvelope (errText : String) : Obj :=
  Obj.dict [("result", Obj.null), ("error", Obj.str errText), ("metrics", Obj.null)]

/-- The reduced envelope attempted when encoding the recovered-error
envelope itself fails. -/
def encodingErrEnvelope (errText : String) : Obj :=
  Obj.dict [("result", Obj.null), ("error", Obj.str errText), ("metrics", Obj.null),
    ("encoding_error", Obj.bool true)]

/-- The fail-safe wrapper `catch_errors` around a computation that returns
response text: any exception of the computation is converted into an
encoded recovered-error envelope carrying `message + ' ' + traceback`;
a `ValueError`/`TypeError` while encoding that envelope leads to a second
attempt carrying the encoding exception and `encoding_error: true`; any
failure of the second attempt returns the literal `b'{}'`.  (An encoding
failure outside `ValueError`/`TypeError` would escape the wrapper, which is
why the result stays in `Except`.) -/
def catch_errors (r : Except PyExc String) : Except PyExc String :=
  match r with
  | Except.ok v => Except.ok v
  | Except.error e =>
    let error := force_str e.msg ++ " " ++ force_str e.trace
    match encode (errEnvelope error) with
    | Except.ok v => Except.ok v
    | Except.error e2 =>
      if e2.kind = ExcKind.valueError ∨ e2.kind = ExcKind.typeError then
        match encode (encodingErrEnvelope (force_str e2.msg ++ " " ++ force_str e2.trace)) with
        | Except.ok v => Except.ok v
        | Except.error _ => Except.ok "\x7b\x7d"
      else Except.error e2

/-- The success envelope of `handle_data`. -/
def successEnvelope (rv : Obj) (mb ma : Obj) : Obj :=
  Obj.dict [("result", rv),
    ("metrics", Obj.dict [("before", mb), ("after", ma)]),
    ("error", Obj.null)]

/-- The body of `handle_data` before the `@catch_errors` decorator:
collect metrics, decode, process, collect metrics, encode.  The two `Env`
arguments are the environment states at the two `collect_metrics` calls. -/
def handle_data_inner (eng : Engine) (env1 env2 : Env) (data : String) :
    Except PyExc String := do
  let metrics_before := MetricCollector.collect_metrics env1
  let (payload, meta) ← decode data
  let rv ← process_event eng payload meta
  let metrics_after := MetricCollector.collect_metrics env2
  encode (successEnvelope rv metrics_before metrics_after)

/-- `handle_data` with its `@catch_errors` decorator applied. -/
def handle_data (eng : Engine) (env1 env2 : Env) (data : String) :
    Except PyExc String :=
  catch_errors (handle_data_inner eng env1 env2 data)

/-- `handle_data_piped(pipe, data)` as seen from the parent: the value the
child writes to the channel, or nothing if the wrapped call itself raised
(in which case the child process dies without writing). -/
def handle_data_piped (eng : Engine) (env1 env2 : Env) (data : String) : Option String :=
  (handle_data eng env1 env2 data).toOption

/-- The exception of `assert parent_conn.poll(), "Process crashed"`. -/
def assertFailure : PyExc :=
  ⟨ExcKind.assertionError, "Process crashed", tb "assert parent_conn.poll()"⟩

/-- Alias for the module-level `handle_data`, resolving the name collision
with the method of the same name inside the handler class. -/
def handle_data_module : Engine → Env → Env → String → Except PyExc String :=
  handle_data

/-- `EventNormalizeHandler.handle_data`: direct dispatch when the isolation
flag (`ENABLE_RUST`) is off; otherwise the `inner` worker dance, wrapped in
its own `catch_errors`.  `channel` is the data available on the parent end
of the pipe when it polls after `p.join(1)`: `none` models a worker that
crashed without writing or is still running past the bound, in which case
the `assert` raises; `some resp` is relayed via `parent_conn.recv()`. -/
def EventNormalizeHandler.handle_data (enable_rust : Bool) (eng : Engine)
    (env1 env2 : Env) (channel : Option String) (data : String) :
    Except PyExc String :=
  if !enable_rust then handle_data_module eng env1 env2 data
  else
    catch_errors
      (match channel with
       | some resp => Except.ok resp
       | Option.none => Except.error assertFailure)

/-- `EventNormalizeHandler.BUFFER_SIZE`. -/
def BUFFER_SIZE : Nat := 4096

/-- `EventNormalizeHandler.SOCKET_TIMEOUT` (10.0 seconds). -/
def SOCKET_TIMEOUT : Int := 10

/-- Result of the receive loop.  The network input is given as the sequence
of values successive `self.request.recv(BUFFER_SIZE)` calls would return:
`none` for a `None` return, `some ""` for a peer half-close, otherwise a
chunk of at most `BUFFER_SIZE` bytes.  When the sequence is exhausted
without a half-close, the next `recv` blocks: since no timeout is ever set
on `self.request`, the loop blocks indefinitely (`blocked`). -/
inductive ReadOutcome where
  | complete (data : String)
  | blocked
  | failed (e : PyExc)

/-- The receive loop of `EventNormalizeHandler.handle`: read chunks until a
read returns no data, raise `ValueError` on a `None` read, and join the
chunks. -/
def recvLoop : List (Option String) → ReadOutcome
  | [] => ReadOutcome.blocked
  | Option.none :: _ => ReadOutcome.failed ⟨ExcKind.valueError, "Received None", tb "handle"⟩
  | some c :: rest =>
    if c.isEmpty then ReadOutcome.complete ""
    else
      match recvLoop rest with
      | ReadOutcome.complete s => ReadOutcome.complete (c ++ s)
      | r => r

/-- Observable outcome of `EventNormalizeHandler.handle` for one accepted
connection: the timeout values of the two sockets after the handler ran,
and either the response written back, an exception, or an indefinite block
inside the receive loop. -/
structure HandleResult where
  serverSocketTimeout : Option Int
  requestSocketTimeout : Option Int
  sent : Option String
  raised : Option PyExc
  blockedRead : Bool

/-- `EventNormalizeHandler.handle`: sets the 10-second timeout on
`self.server.socket` (the listening socket — not on `self.request`, the
connection socket being read, whose timeout keeps its initial value),
receives the request until half-close, dispatches through
`EventNormalizeHandler.handle_data` and sends the response. -/
def EventNormalizeHandler.handle (requestTimeout0 : Option Int)
    (pending : List (Option String)) (enable_rust : Bool) (eng : Engine)
    (env1 env2 : Env) (channel : Option String) : HandleResult :=
  let serverT := some SOCKET_TIMEOUT
  let reqT := requestTimeout0
  match recvLoop pending with
  | ReadOutcome.blocked =>
    { serverSocketTimeout := serverT, requestSocketTimeout := reqT,
      sent := Option.none, raised := Option.none, blockedRead := true }
  | ReadOutcome.failed e =>
    { serverSocketTimeout := serverT, requestSocketTimeout := reqT,
      sent := Option.none, raised := some e, blockedRead := false }
  | ReadOutcome.complete data =>
    match EventNormalizeHandler.handle_data enable_rust eng env1 env2 channel data with
    | Except.ok resp =>
      { serverSocketTimeout := serverT, requestSocketTimeout := reqT,
        sent := some resp, raised := Option.none, blockedRead := false }
    | Except.error e =>
      { serverSocketTimeout := serverT, requestSocketTimeout := reqT,
        sent := Option.none, raised := some e, blockedRead := false }

theorem encode_errEnvelope (s : String) :
    encode (errEnvelope s)
      = Except.ok (Json.render (Json.obj [("result", Json.null), ("error", Json.str s),
          ("metrics", Json.null)])) := rfl

theorem catch_errors_ok (s : String) : catch_errors (Except.ok s) = Except.ok s := rfl

theorem catch_errors_error (e : PyExc) :
    catch_errors (Except.error e)
      = Except.ok (Json.render (Json.obj [("result", Json.null),
          ("error", Json.str (force_str e.msg ++ " " ++ force_str e.trace)),
          ("metrics", Json.null)])) := rfl

/-- Inverting a successful run of the undecorated `handle_data` body. -/
theorem handle_data_inner_ok {eng : Engine} {env1 env2 : Env} {data s : String}
    (h : handle_data_inner eng env1 env2 data = Except.ok s) :
    ∃ payload meta rv,
      decode data = Except.ok (payload, meta) ∧
      process_event eng payload meta = Except.ok rv ∧
      encode (successEnvelope rv (MetricCollector.collect_metrics env1)
        (MetricCollector.collect_metrics env2)) = Except.ok s := by
  unfold handle_data_inner at h
  cases hd : decode data with
  | error e => rw [hd] at h; simp [Bind.bind, Except.bind] at h
  | ok pm =>
    obtain ⟨payload, meta⟩ := pm
    rw [hd] at h
    simp only [Bind.bind, Except.bind] at h
    cases hp : process_event eng payload meta with
    | error e => rw [hp] at h; simp at h
    | ok rv =>
      rw [hp] at h
      exact ⟨payload, meta, rv, rfl, hp, h⟩

/-- A successful `encode` output is the serialization of a JSON value. -/
theorem encode_ok_render {o : Obj} {s : String} (h : encode o = Except.ok s) :
    ∃ j : Json, Json.render j = s := by
  unfold encode at h
  cases hj : toJson o with
  | none => rw [hj] at h; simp at h
  | some j => rw [hj] at h; simp at h; exact ⟨j, h⟩

/-- The wire form of a request built by a client: the serialization of the
two-element message `[metadata, base64-of-payload]`. -/
def encodeRequest (meta : List (String × String)) (payload : List Nat) : String :=
  Json.render (Json.arr [Json.obj (strPairs meta), Json.str (b64encodeStr payload)])

theorem str_append_assoc (a b c : String) : (a ++ b) ++ c = a ++ (b ++ c) := by
  apply String.ext
  simp

/-- C1: the fail-safe wrapper around the decode/dispatch/encode pipeline
never raises: for every input it returns response bytes that are the
serialization of a JSON value. -/
theorem handle_data_total_valid (eng : Engine) (env1 env2 : Env) (data : String) :
    ∃ s : String, handle_data eng env1 env2 data = Except.ok s
      ∧ ∃ j : Json, Json.render j = s := by
  unfold handle_data
  cases h : handle_data_inner eng env1 env2 data with
  | ok s => exact ⟨s, rfl, encode_ok_render (handle_data_inner_ok h).choose_spec.choose_spec.choose_spec.2.2⟩
  | error e => exact ⟨_, catch_errors_error e, ⟨_, rfl⟩⟩

/-- C5: decoding the wire form built by serializing the two-element message
`[metadata, base64-of-payload]` yields exactly the original payload bytes
and the original metadata. -/
theorem decode_encode_roundtrip (meta : List (String × String)) (payload : List Nat)
    (h : ∀ b ∈ payload, b < 256) :
    decode (encodeRequest meta payload)
      = Except.ok (payload, Json.obj (strPairs meta)) := by
  unfold decode encodeRequest
  rw [parse_render_request]
  simp only [unpack2]
  rw [show b64decode (b64encodeStr payload) = b64decodeCs (b64encode payload) from rfl]
  rw [b64_roundtrip payload h]

theorem decode_encode_roundtrip_witness :
    decode (encodeRequest [("REMOTE_ADDR", "127.0.0.1")] [104, 105])
      = Except.ok ([104, 105], Json.obj (strPairs [("REMOTE_ADDR", "127.0.0.1")])) :=
  decode_encode_roundtrip [("REMOTE_ADDR", "127.0.0.1")] [104, 105] (by decide)

/-- C2: in isolated mode with nothing available on the channel after the
bounded join (the worker crashed without writing, or is still running),
the dispatcher returns a recovered-error envelope with null result whose
error text begins with the fixed message `"Process crashed"`. -/
theorem isolated_crash_message (eng : Engine) (env1 env2 : Env) (data : String) :
    ∃ errText : String,
      EventNormalizeHandler.handle_data true eng env1 env2 Option.none data
        = Except.ok (Json.render (Json.obj [("result", Json.null),
            ("error", Json.str errText), ("metrics", Json.null)]))
      ∧ ∃ rest : String, errText = "Process crashed" ++ rest := by
  refine ⟨force_str assertFailure.msg ++ " " ++ force_str assertFailure.trace, rfl, ?_⟩
  exact ⟨" " ++ assertFailure.trace, str_append_assoc "Process crashed" " " assertFailure.trace⟩

/-- C3: in isolated mode, when the worker has written a response to the
channel by the time the parent polls, the dispatcher relays exactly those
bytes, unmodified. -/
theorem isolated_relay_unmodified (eng : Engine) (env1 env2 : Env) (resp data : String) :
    EventNormalizeHandler.handle_data true eng env1 env2 (some resp) data
      = Except.ok resp := rfl

/-- C4: any exception raised during decode or dispatch makes the wrapper
return the encoded envelope with null result, null metrics, and the
exception message concatenated with the traceback as the error. -/
theorem error_envelope_shape (eng : Engine) (env1 env2 : Env) (data : String) (e : PyExc)
    (h : handle_data_inner eng env1 env2 data = Except.error e) :
    handle_data eng env1 env2 data
      = Except.ok (Json.render (Json.obj [("result", Json.null),
          ("error", Json.str (force_str e.msg ++ " " ++ force_str e.trace)),
          ("metrics", Json.null)])) := by
  unfold handle_data
  rw [h, catch_errors_error]

def wEngine : Engine :=
  ⟨fun _ _ _ _ => Except.ok [("message", Obj.str "hi")],
   fun _ => Except.ok true,
   fun _ => Except.ok Obj.null⟩

def wEnv : Env :=
  ⟨0, ⟨0, 0, 0, 0, 0, 0, 0, 0, 0, 0, 0, 0, 0, 0, 0, 0⟩, false, ""⟩

def wExc : PyExc :=
  ⟨ExcKind.valueError, "No JSON object could be decoded", tb "json.loads"⟩

theorem error_envelope_shape_witness :
    handle_data_inner wEngine wEnv wEnv "x" = Except.error wExc ∧
    handle_data wEngine wEnv wEnv "x"
      = Except.ok (Json.render (Json.obj [("result", Json.null),
          ("error", Json.str (force_str wExc.msg ++ " " ++ force_str wExc.trace)),
          ("metrics", Json.null)])) :=
  ⟨by rfl, error_envelope_shape wEngine wEnv wEnv "x" wExc (by rfl)⟩

/-- `obj.get(key)`-style field access on an envelope. -/
def getField (o : Obj) (k : String) : Option Obj :=
  match o with
  | Obj.dict kvs => kvs.lookup k
  | _ => Option.none

/-- The envelope's `error` field exists and is not `None`. -/
def errorNonNull (o : Obj) : Prop :=
  ∃ v, getField o "error" = some v ∧ v ≠ Obj.null

/-- The envelope's `result` field is `None`. -/
def resultNull (o : Obj) : Prop :=
  getField o "result" = some Obj.null

/-- The envelope's `metrics` field is `None` or holds both snapshots. -/
def metricsWellFormed (o : Obj) : Prop :=
  getField o "metrics" = some Obj.null ∨
  ∃ b a, getField o "metrics" = some (Obj.dict [("before", b), ("after", a)])

theorem except_bind_ok {α β : Type} {x : Except PyExc α} {f : α → Except PyExc β} {b : β}
    (h : (x >>= f) = Except.ok b) : ∃ a, x = Except.ok a ∧ f a = Except.ok b := by
  cases x with
  | error e => simp [Bind.bind, Except.bind] at h
  | ok a => exact ⟨a, rfl, by simpa [Bind.bind, Except.bind] using h⟩

/-- A successful `process_event` returns the two-key event/group-hash dict. -/
theorem process_event_ok_shape {eng : Engine} {p : List Nat} {m : Json} {rv : Obj}
    (h : process_event eng p m = Except.ok rv) :
    ∃ ev gh, rv = Obj.dict [("event", Obj.dict ev), ("group_hash", gh)] := by
  unfold process_event at h
  obtain ⟨ra, h1, h⟩ := except_bind_ok h
  obtain ⟨ua, h2, h⟩ := except_bind_ok h
  obtain ⟨ce, h3, h⟩ := except_bind_ok h
  obtain ⟨event, h4, h⟩ := except_bind_ok h
  obtain ⟨sp, h5, h⟩ := except_bind_ok h
  cases sp with
  | true =>
    dsimp only at h
    rw [if_pos rfl] at h
    obtain ⟨gh, h6, h⟩ := except_bind_ok h
    cases h6
    cases h
    exact ⟨event, Obj.null, rfl⟩
  | false =>
    dsimp only at h
    rw [if_neg (by simp)] at h
    obtain ⟨gh, h6, h⟩ := except_bind_ok h
    cases h
    exact ⟨event, gh, rfl⟩

/-- Every run of the wrapped `handle_data` returns the encoding of either a
success envelope around the two-key result dict or a recovered-error
envelope. -/
theorem handle_data_envelope (eng : Engine) (env1 env2 : Env) (data : String) :
    ∃ s o, handle_data eng env1 env2 data = Except.ok s ∧ encode o = Except.ok s ∧
      ((∃ ev gh, o = successEnvelope (Obj.dict [("event", Obj.dict ev), ("group_hash", gh)])
          (MetricCollector.collect_metrics env1) (MetricCollector.collect_metrics env2))
        ∨ (∃ t, o = errEnvelope t)) := by
  unfold handle_data
  cases h : handle_data_inner eng env1 env2 data with
  | ok s =>
    obtain ⟨p, m, rv, hd, hp, he⟩ := handle_data_inner_ok h
    obtain ⟨ev, gh, hrv⟩ := process_event_ok_shape hp
    subst hrv
    exact ⟨s, _, rfl, he, Or.inl ⟨ev, gh, rfl⟩⟩
  | error e =>
    refine ⟨_, errEnvelope (force_str e.msg ++ " " ++ force_str e.trace),
      catch_errors_error e, encode_errEnvelope _, Or.inr ⟨_, rfl⟩⟩

theorem getField_success_error (rv mb ma : Obj) :
    getField (successEnvelope rv mb ma) "error" = some Obj.null := rfl

theorem getField_success_result (rv mb ma : Obj) :
    getField (successEnvelope rv mb ma) "result" = some rv := rfl

theorem getField_success_metrics (rv mb ma : Obj) :
    getField (successEnvelope rv mb ma) "metrics"
      = some (Obj.dict [("before", mb), ("after", ma)]) := rfl

theorem getField_err_error (t : String) :
    getField (errEnvelope t) "error" = some (Obj.str t) := rfl

theorem getField_err_result (t : String) :
    getField (errEnvelope t) "result" = some Obj.null := rfl

theorem getField_err_metrics (t : String) :
    getField (errEnvelope t) "metrics" = some Obj.null := rfl

/-- The error/result biconditional for the success envelope (both false). -/
theorem envelope_iff_success (ev : List (String × Obj)) (gh mb ma : Obj) :
    errorNonNull (successEnvelope (Obj.dict [("event", Obj.dict ev), ("group_hash", gh)]) mb ma)
      ↔ resultNull (successEnvelope (Obj.dict [("event", Obj.dict ev), ("group_hash", gh)]) mb ma) := by
  constructor
  · rintro ⟨v, hv, hne⟩
    rw [getField_success_error] at hv
    cases hv
    exact absurd rfl hne
  · intro hr
    rw [resultNull, getField_success_result] at hr
    cases hr

/-- The error/result biconditional for the error envelope (both true). -/
theorem envelope_iff_err (t : String) :
    errorNonNull (errEnvelope t) ↔ resultNull (errEnvelope t) := by
  constructor
  · intro _
    exact getField_err_result t
  · intro _
    exact ⟨Obj.str t, getField_err_error t, by intro hh; cases hh⟩

/-- Every successful response of the dispatcher method — direct mode, a
crashed worker, or relay of a worker that itself ran the wrapped pipeline —
is the encoding of a success envelope or of a recovered-error envelope. -/
theorem method_envelope (enable_rust crashed : Bool) (eng ceng : Engine)
    (env1 env2 cenv1 cenv2 : Env) (data s : String)
    (h : EventNormalizeHandler.handle_data enable_rust eng env1 env2
        (if crashed then Option.none else handle_data_piped ceng cenv1 cenv2 data) data
      = Except.ok s) :
    ∃ o : Obj, encode o = Except.ok s ∧
      ((∃ ev gh mb ma, o = successEnvelope
          (Obj.dict [("event", Obj.dict ev), ("group_hash", gh)]) mb ma)
        ∨ (∃ t, o = errEnvelope t)) := by
  cases enable_rust with
  | false =>
    rw [show EventNormalizeHandler.handle_data false eng env1 env2
        (if crashed then Option.none else handle_data_piped ceng cenv1 cenv2 data) data
        = handle_data eng env1 env2 data from rfl] at h
    obtain ⟨s0, o, hh, he, hcase⟩ := handle_data_envelope eng env1 env2 data
    rw [hh] at h
    cases h
    refine ⟨o, he, ?_⟩
    rcases hcase with ⟨ev, gh, ho⟩ | ⟨t, ho⟩
    · exact Or.inl ⟨ev, gh, _, _, ho⟩
    · exact Or.inr ⟨t, ho⟩
  | true =>
    cases crashed with
    | true =>
      rw [show EventNormalizeHandler.handle_data true eng env1 env2
          (if true then Option.none else handle_data_piped ceng cenv1 cenv2 data) data
          = Except.ok (Json.render (Json.obj [("result", Json.null),
              ("error", Json.str (force_str assertFailure.msg ++ " "
                ++ force_str assertFailure.trace)),
              ("metrics", Json.null)])) from rfl] at h
      cases h
      exact ⟨errEnvelope _, encode_errEnvelope _, Or.inr ⟨_, rfl⟩⟩
    | false =>
      obtain ⟨s0, o, hh, he, hcase⟩ := handle_data_envelope ceng cenv1 cenv2 data
      rw [show (if false then Option.none else handle_data_piped ceng cenv1 cenv2 data)
          = handle_data_piped ceng cenv1 cenv2 data from rfl] at h
      rw [show handle_data_piped ceng cenv1 cenv2 data = some s0 from by
        unfold handle_data_piped
        rw [hh]
        rfl] at h
      rw [show EventNormalizeHandler.handle_data true eng env1 env2 (some s0) data
          = Except.ok s0 from rfl] at h
      cases h
      refine ⟨o, he, ?_⟩
      rcases hcase with ⟨ev, gh, ho⟩ | ⟨t, ho⟩
      · exact Or.inl ⟨ev, gh, _, _, ho⟩
      · exact Or.inr ⟨t, ho⟩

/-- C6: in every envelope the pipeline produces, `error` is non-null if and
only if `result` is null; the only other possible response is the literal
last-resort `b'{}'`. -/
theorem error_iff_result_null (enable_rust crashed : Bool) (eng ceng : Engine)
    (env1 env2 cenv1 cenv2 : Env) (data s : String)
    (h : EventNormalizeHandler.handle_data enable_rust eng env1 env2
        (if crashed then Option.none else handle_data_piped ceng cenv1 cenv2 data) data
      = Except.ok s) :
    s = "\x7b\x7d" ∨ ∃ o : Obj, encode o = Except.ok s ∧ (errorNonNull o ↔ resultNull o) := by
  obtain ⟨o, he, hcase⟩ :=
    method_envelope enable_rust crashed eng ceng env1 env2 cenv1 cenv2 data s h
  right
  refine ⟨o, he, ?_⟩
  rcases hcase with ⟨ev, gh, mb, ma, ho⟩ | ⟨t, ho⟩ <;> subst ho
  · exact envelope_iff_success ev gh mb ma
  · exact envelope_iff_err t

/-- The error envelope the wrapped pipeline produces on the input `"x"`. -/
def wErr : String :=
  match handle_data wEngine wEnv wEnv "x" with
  | Except.ok s => s
  | Except.error _ => ""

theorem error_iff_result_null_witness :
    wErr = "\x7b\x7d" ∨ ∃ o : Obj, encode o = Except.ok wErr ∧ (errorNonNull o ↔ resultNull o) :=
  error_iff_result_null false false wEngine wEngine wEnv wEnv wEnv wEnv "x" wErr (by rfl)

/-- C7: in every envelope the pipeline produces, the `metrics` field is
either null or an object holding both the `before` and the `after`
snapshot; the only other possible response is the literal last-resort
`b'{}'`, which carries no fields at all. -/
theorem metrics_both_or_null (enable_rust crashed : Bool) (eng ceng : Engine)
    (env1 env2 cenv1 cenv2 : Env) (data s : String)
    (h : EventNormalizeHandler.handle_data enable_rust eng env1 env2
        (if crashed then Option.none else handle_data_piped ceng cenv1 cenv2 data) data
      = Except.ok s) :
    s = "\x7b\x7d" ∨ ∃ o : Obj, encode o = Except.ok s ∧ metricsWellFormed o := by
  obtain ⟨o, he, hcase⟩ :=
    method_envelope enable_rust crashed eng ceng env1 env2 cenv1 cenv2 data s h
  right
  refine ⟨o, he, ?_⟩
  rcases hcase with ⟨ev, gh, mb, ma, ho⟩ | ⟨t, ho⟩ <;> subst ho
  · exact Or.inr ⟨mb, ma, getField_success_metrics _ _ _⟩
  · exact Or.inl (getField_err_metrics t)

theorem metrics_both_or_null_witness :
    wErr = "\x7b\x7d" ∨ ∃ o : Obj, encode o = Except.ok wErr ∧ metricsWellFormed o :=
  metrics_both_or_null false false wEngine wEngine wEnv wEnv wEnv wEnv "x" wErr (by rfl)

/-- C10: whenever decode and normalization succeed, the success envelope's
`result` is a mapping with exactly the keys `"event"` and `"group_hash"`,
and in particular is never null. -/
theorem success_result_two_keys (eng : Engine) (env1 env2 : Env) (data s : String)
    (h : handle_data_inner eng env1 env2 data = Except.ok s) :
    ∃ ev gh,
      encode (successEnvelope (Obj.dict [("event", Obj.dict ev), ("group_hash", gh)])
          (MetricCollector.collect_metrics env1) (MetricCollector.collect_metrics env2))
        = Except.ok s
      ∧ getField (successEnvelope (Obj.dict [("event", Obj.dict ev), ("group_hash", gh)])
            (MetricCollector.collect_metrics env1) (MetricCollector.collect_metrics env2))
          "result" = some (Obj.dict [("event", Obj.dict ev), ("group_hash", gh)])
      ∧ Obj.dict [("event", Obj.dict ev), ("group_hash", gh)] ≠ Obj.null := by
  obtain ⟨p, m, rv, hd, hp, he⟩ := handle_data_inner_ok h
  obtain ⟨ev, gh, hrv⟩ := process_event_ok_shape hp
  subst hrv
  exact ⟨ev, gh, he, getField_success_result _ _ _, by intro hh; cases hh⟩

/-- A well-formed request: empty metadata object and empty payload. -/
def wRequest : String := "[\x7b\x7d, \"\"]"

/-- The success response on `wRequest`. -/
def wSuccess : String :=
  match handle_data_inner wEngine wEnv wEnv wRequest with
  | Except.ok s => s
  | Except.error _ => ""

theorem success_result_two_keys_witness :
    ∃ ev gh,
      encode (successEnvelope (Obj.dict [("event", Obj.dict ev), ("group_hash", gh)])
          (MetricCollector.collect_metrics wEnv) (MetricCollector.collect_metrics wEnv))
        = Except.ok wSuccess
      ∧ getField (successEnvelope (Obj.dict [("event", Obj.dict ev), ("group_hash", gh)])
            (MetricCollector.collect_metrics wEnv) (MetricCollector.collect_metrics wEnv))
          "result" = some (Obj.dict [("event", Obj.dict ev), ("group_hash", gh)])
      ∧ Obj.dict [("event", Obj.dict ev), ("group_hash", gh)] ≠ Obj.null :=
  success_result_two_keys wEngine wEnv wEnv wRequest wSuccess (by rfl)

/-- The fixed enumerated counter key set of a metrics snapshot. -/
def ruFieldNames : List String :=
  ["ru_idrss", "ru_inblock", "ru_isrss", "ru_ixrss", "ru_majflt", "ru_maxrss",
   "ru_minflt", "ru_msgrcv", "ru_msgsnd", "ru_nivcsw", "ru_nsignals", "ru_nswap",
   "ru_nvcsw", "ru_oublock", "ru_stime", "ru_utime"]

/-- The resource-counter keys of a snapshot (the `ru_`-prefixed fields;
`time` and the platform diagnostic `proc` are not counters). -/
def counterKeys (o : Obj) : List String :=
  match o with
  | Obj.dict kvs => (kvs.map Prod.fst).filter (fun k => k.toList.take 3 = ['r', 'u', '_'])
  | _ => []

/-- C8: every snapshot the Metric Collector produces carries exactly the
fixed enumerated counter key set, independent of the process state at the
call — the same set for every snapshot. -/
theorem counter_keys_fixed (env env' : Env) :
    counterKeys (MetricCollector.collect_metrics env) = ruFieldNames ∧
    counterKeys (MetricCollector.collect_metrics env)
      = counterKeys (MetricCollector.collect_metrics env') := by
  have key : ∀ e : Env, counterKeys (MetricCollector.collect_metrics e) = ruFieldNames := by
    intro e
    cases hl : e.is_linux <;> simp only [MetricCollector.collect_metrics, hl] <;> rfl
  exact ⟨key env, (key env).trans (key env').symm⟩

/-- C9 (refuting the timeout clause): a peer that sends one chunk and never
half-closes makes the handler block indefinitely in the receive loop: the
10-second `SOCKET_TIMEOUT` was applied to the server's listening socket,
while the request socket being read keeps no timeout at all. -/
theorem read_timeout_misapplied :
    EventNormalizeHandler.handle Option.none [some "a"] false wEngine wEnv wEnv Option.none
      = { serverSocketTimeout := some SOCKET_TIMEOUT, requestSocketTimeout := Option.none,
          sent := Option.none, raised := Option.none, blockedRead := true } := rfl
